import Mathlib

/-
Verification of the bilalapp scheduling and playback-orchestration core.

The definitions below are a shallow embedding of `server.py`:
pure string manipulation is embedded directly, the mutable module
globals (`AZAN_LOCK`, `PLAYBACK_ACTIVE`, `AZAN_STARTED`, `SONOS_SNAPSHOT`,
the SQLite play-history table) become an explicit `ServerState` record,
and the external world (Sonos devices, the cloud/local fallback
microservices, wall-clock time) is an explicit environment record.
Device-affecting operations are recorded as an ordered trace of
`DevCall` values.
-/

set_option maxHeartbeats 1000000

namespace Bilal

/-- Python whitespace predicate as used by `str.strip` (space, \t, \n, \v, \f, \r). -/
def isWsChar (c : Char) : Bool := c.toNat == 32 || (9 ≤ c.toNat && c.toNat ≤ 13)

/-- ASCII lower-casing of one character, as Python `str.lower` acts on ASCII input. -/
def lowCh (c : Char) : Char :=
  if 65 ≤ c.toNat && c.toNat ≤ 90 then Char.ofNat (c.toNat + 32) else c

/-- Python `s.lower()` (restricted to its ASCII action, which covers all inputs used here). -/
def pyLower (s : String) : String := ⟨s.data.map lowCh⟩

/-- Strip leading and trailing Python whitespace from a character list. -/
def pyStripL (l : List Char) : List Char :=
  ((l.dropWhile isWsChar).reverse.dropWhile isWsChar).reverse

/-- Python `s.strip()`. -/
def pyStrip (s : String) : String := ⟨pyStripL s.data⟩

/-- Does the list begin with `needle`? -/
def startsL : List Char → List Char → Bool
  | [], _ => true
  | _ :: _, [] => false
  | a :: as, b :: bs => a == b && startsL as bs

/-- Does `needle` occur contiguously somewhere in the list? -/
def hasSubL (needle : List Char) : List Char → Bool
  | [] => startsL needle []
  | b :: bs => startsL needle (b :: bs) || hasSubL needle bs

/-- Python `needle in hay` for strings (contiguous substring test). -/
def containsSub (hay needle : String) : Bool := hasSubL needle.data hay.data

/-- Python `str.split(sep)` on a character list (keeps empty pieces). -/
def splitChL (sep : Char) : List Char → List (List Char)
  | [] => [[]]
  | c :: cs =>
    if c == sep then [] :: splitChL sep cs
    else
      match splitChL sep cs with
      | [] => [[c]]
      | g :: gs => (c :: g) :: gs

/-- Python `s.split(sep)` for a single-character separator. -/
def pySplit (sep : Char) (s : String) : List String :=
  (splitChL sep s.data).map (fun l => ⟨l⟩)

/-- Accumulating decimal parser; `none` models Python `int()` raising `ValueError`. -/
def digitsVal : List Char → Option Nat → Option Nat
  | [], acc => acc
  | c :: cs, acc =>
    if c.isDigit then digitsVal cs (some ((acc.getD 0) * 10 + (c.toNat - 48)))
    else none

/-- Python `int(s)` on the digit strings produced by the time sources. -/
def pyInt (s : String) : Option Nat := digitsVal s.data none

/-- Seconds denoted by a 3-part `H:MM:SS` split; `none` models `int()` raising. -/
def hmsSecs : List String → Option Nat
  | [h, m, s] =>
    match pyInt h, pyInt m, pyInt s with
    | some a, some b, some c => some (a * 3600 + b * 60 + c)
    | _, _, _ => none
  | _ => none

/-- Seconds-into-day denoted by an `HH:MM` prayer-time string
(`parts = tstr.split(':'); hour = int(parts[0]); minute = int(parts[1])`);
`none` models the `IndexError`/`ValueError` the Python code would raise. -/
def hmSecs (t : String) : Option Nat :=
  match pySplit ':' t with
  | h :: m :: _ =>
    match pyInt h, pyInt m with
    | some a, some b => some (a * 3600 + b * 60)
    | _, _ => none
  | _ => none

/-- One discovered Sonos speaker, as the orchestrator observes it. -/
structure Speaker where
  uid : String
  name : String
  volume : Nat
  isCoordinator : Bool
deriving DecidableEq

/-- One entry of `SONOS_SNAPSHOT` (volume, uri, position, transport state);
missing `uri`/`position` values are modelled as the empty string, matching
Python truthiness at every use site. -/
structure Snap where
  volume : Nat
  uri : String
  position : String
  state : String
deriving DecidableEq

/-- One row of the SQLite `play_history` table (the PlayedLedger); the
timestamp is modelled as seconds on an absolute local-time axis. -/
structure PlayEntry where
  file : String
  ts : Int
deriving DecidableEq

/-- A device-affecting call issued to the Speaker Controller boundary
(or to the cloud/local playback microservices). -/
inductive DevCall
  | cloudPlay (url : String)
  | localPlay (url : String)
  | playUri (uid : String) (uri : String)
  | stop (uid : String)
  | seek (uid : String) (pos : String)
  | setVolume (uid : String) (vol : Nat)
  | joinGrp (uid : String) (coordUid : String)
  | unjoin (uid : String)
deriving DecidableEq

/-- The mutable module-level state of `server.py` that the orchestration
code reads and writes. `azanStarted` is the module-global `AZAN_STARTED`. -/
structure ServerState where
  azanLock : Bool
  playbackActive : Bool
  azanStarted : Bool
  snapshot : List (String × Snap)
  history : List PlayEntry
deriving DecidableEq

/-- Return value of `control_with_fallback`'s cloud/local actions
(`{'status': 'ok', 'mode': ...}` in the source). -/
structure FbRes where
  status : String
  mode : String

/-- Environment for one invocation of the `/api/play` handler: what the
fallback engine, discovery, the coordinator's state queries and the clock
return. `Except.error` models `control_with_fallback` raising (both the
cloud and the local action failed). -/
structure PlayEnv where
  fallback : Except Unit FbRes
  speakers : List Speaker
  coordInfoFails : Bool
  coordUri : String
  coordPos : String
  coordState : String
  snapFails : String → Bool
  localIp : String
  playFails : Bool
  postFails : Bool
  postUri : String
  postState : String
  now : Int

/-- Result of one `/api/play` invocation: the JSON `status`/`message`, the
HTTP response code, the updated module state, the ordered device-call
trace, and whether a monitoring thread was spawned. -/
structure PlayResult where
  status : String
  message : String
  code : Nat
  newState : ServerState
  calls : List DevCall
  monitorSpawned : Bool
deriving DecidableEq

/-- The audio URL built for a filename (`http://<ip>:5000/audio/<filename>`). -/
def audioUrlOf (env : PlayEnv) (filename : String) : String :=
  "http://" ++ env.localIp ++ ":5000/audio/" ++ filename

/-- The snapshot loop of `play_audio`: every speaker gets a snapshot entry
holding the COORDINATOR's track uri/position and transport state plus its
own volume, then its volume is set to 50; a per-speaker exception skips
both and bumps the error count. Returns (snapshot map, calls, error count). -/
def snapLoop (cUri cPos cState : String) (fails : String → Bool) :
    List Speaker → List (String × Snap) × List DevCall × Nat
  | [] => ([], [], 0)
  | s :: rest =>
    let (m, cs, e) := snapLoop cUri cPos cState fails rest
    if fails s.uid then (m, cs, e + 1)
    else ((s.uid, ⟨s.volume, cUri, cPos, cState⟩) :: m, DevCall.setVolume s.uid 50 :: cs, e)

/-- Snapshot phase outcome for a given environment. -/
def snapResult (env : PlayEnv) : List (String × Snap) × List DevCall × Nat :=
  snapLoop env.coordUri env.coordPos env.coordState env.snapFails env.speakers

/-- The start-verification condition of `play_audio`
(`(audio_url in post_uri) or (post_state == 'PLAYING')`). -/
def startConfirmed (env : PlayEnv) (filename : String) : Bool :=
  containsSub env.postUri (audioUrlOf env filename) || env.postState == "PLAYING"

/-- The direct ("last resort") Sonos playback block of `play_audio`
(server.py lines 1119-1231): discovery, snapshot+volume, a single
`play_uri` on the elected coordinator, settle delay, start verification,
play-history write on confirmed start only. `AZAN_STARTED` is assigned in
the Python function without a `global` declaration, so the module-level
flag is untouched here: the `azanStarted` field is deliberately left
unchanged on every path, mirroring the source's scoping. -/
def playDirect (st : ServerState) (env : PlayEnv) (filename : String) : PlayResult :=
  match env.speakers with
  | [] => ⟨"error", "No speakers", 404, st, [], false⟩
  | s0 :: _ =>
    if env.coordInfoFails then
      ⟨"error", "Play Error", 500, { st with snapshot := [], azanLock := true }, [], false⟩
    else if (snapResult env).2.2 = env.speakers.length then
      ⟨"error", "Failed to snapshot all speakers.", 500,
        { st with snapshot := (snapResult env).1, azanLock := false },
        (snapResult env).2.1, false⟩
    else if env.playFails then
      ⟨"error", "Azan playback failed.", 500,
        { st with snapshot := (snapResult env).1, azanLock := false },
        (snapResult env).2.1 ++
          [DevCall.playUri (((env.speakers.find? (fun s => s.isCoordinator)).getD s0).uid)
            (audioUrlOf env filename)], false⟩
    else if env.postFails then
      ⟨"error", "Azan playback verification failed.", 500,
        { st with snapshot := (snapResult env).1, azanLock := false },
        (snapResult env).2.1 ++
          [DevCall.playUri (((env.speakers.find? (fun s => s.isCoordinator)).getD s0).uid)
            (audioUrlOf env filename)], false⟩
    else if startConfirmed env filename then
      ⟨"success", "Playback Started", 200,
        { st with
          snapshot := (snapResult env).1
          azanLock := true
          history := st.history ++ [⟨filename, env.now⟩]
          playbackActive := true },
        (snapResult env).2.1 ++
          [DevCall.playUri (((env.speakers.find? (fun s => s.isCoordinator)).getD s0).uid)
            (audioUrlOf env filename)], true⟩
    else
      ⟨"error", "Azan playback failed to start.", 500,
        { st with snapshot := (snapResult env).1, azanLock := false },
        (snapResult env).2.1 ++
          [DevCall.playUri (((env.speakers.find? (fun s => s.isCoordinator)).getD s0).uid)
            (audioUrlOf env filename)], false⟩

/-- The requested-file normalisation of `play_audio` (server.py lines
1041-1050): default the request to `fajr.mp3`, strip it, and map it to
`fajr.mp3` exactly when it contains `fajr` case-insensitively, to
`azan.mp3` in every other case. -/
def playedFileOf (reqFile : Option String) : String :=
  let raw := match reqFile with
    | none => "fajr.mp3"
    | some f => if f = "" then "fajr.mp3" else f
  if containsSub (pyLower (pyStrip raw)) "fajr" then "fajr.mp3" else "azan.mp3"

/-- The `/api/play` handler `play_audio` (server.py lines 1031-1235):
`AZAN_LOCK` gate, requested-file normalisation to `fajr.mp3`/`azan.mp3`,
cloud/local fallback engine, then the direct Sonos block as last resort.
Note there is no consultation of the play history anywhere on the request
path. -/
def playAudio (st : ServerState) (env : PlayEnv) (reqFile : Option String) : PlayResult :=
  if st.azanLock then
    ⟨"error", "Azan in progress, playback blocked.", 429, st, [], false⟩
  else
    let filename := playedFileOf reqFile
    match env.fallback with
    | Except.error _ => ⟨"error", "Play Error", 500, st, [], false⟩
    | Except.ok r =>
      if r.status = "ok" then
        let url := audioUrlOf env filename
        ⟨"success", "Playback Started", 200, st,
          [if r.mode = "cloud" then DevCall.cloudPlay url else DevCall.localPlay url], false⟩
      else
        playDirect st env filename

/-- APScheduler trigger, restricted to the two kinds the source uses:
a one-shot `DateTrigger` at an absolute time and an `IntervalTrigger`
measured in minutes. -/
inductive Trig
  | once (t : Int)
  | every (minutes : Nat)
deriving DecidableEq

/-- The textual job callables the source registers. -/
inductive JobFun
  | postPlay (file : String)
  | reschedDaily
  | missedSched
deriving DecidableEq

/-- One APScheduler job in the JobStore. -/
structure Job where
  id : String
  trig : Trig
  fn : JobFun
deriving DecidableEq

/-- Earliest next firing time of a trigger installed at time `now`. -/
def trigNextRun (t : Trig) (now : Int) : Int :=
  match t with
  | Trig.once u => u
  | Trig.every m => now + (m : Int) * 60

/-- The five prayer keys iterated by `schedule_prayers_for_date`. -/
def prayerKeys : List String := ["fajr", "dhuhr", "asr", "maghrib", "isha"]

/-- The audio file associated with a prayer key
(`'fajr.mp3' if key == 'fajr' else 'azan.mp3'`). -/
def prayerFile (key : String) : String :=
  if key = "fajr" then "fajr.mp3" else "azan.mp3"

/-- The deterministic job id `azan-{date}-{key}`. -/
def azanId (dateStr key : String) : String :=
  "azan-" ++ dateStr ++ "-" ++ key

/-- The "served on time" test of `schedule_prayers_for_date`: some history
entry lies within ±tolerance minutes of the scheduled time and its file
name contains the prayer's file name (`fname in entry.get('file')`, after
the truthiness check on the entry's file). -/
def playedOnTime (hist : List PlayEntry) (key : String) (sched : Int) (tolMin : Int) : Bool :=
  hist.any fun e =>
    decide ((e.ts - sched).natAbs ≤ (tolMin * 60).toNat) &&
    !(e.file = "") && containsSub e.file (prayerFile key)

/-- Context for scheduling one calendar date: its ISO string, the absolute
second at its local midnight, the Time Oracle output (`HH:MM` per event,
`none` for a missing key), and the current time. -/
structure SchedCfg where
  dateStr : String
  dayStart : Int
  times : String → Option String
  now : Int

/-- The decision section of the per-event loop body of
`schedule_prayers_for_date` for one prayer key: outer `none` models the
`int()` exception a malformed time string raises (which aborts the whole
function), `some none` the `continue` cases (missing/empty time, past
time, already played on time), and `some (some job)` a candidate azan
job, still subject to the JobStore membership check. -/
def keyOutcome (cfg : SchedCfg) (tol : Int) (hist : List PlayEntry) (key : String) :
    Option (Option Job) :=
  match cfg.times key with
  | none => some none
  | some tstr =>
    if tstr = "" then some none
    else
      match hmSecs tstr with
      | none => none
      | some secs =>
        let sched := cfg.dayStart + (secs : Int)
        let onTime := playedOnTime hist key sched tol
        if sched ≤ cfg.now && !onTime then some none
        else if onTime then some none
        else some (some ⟨azanId cfg.dateStr key, Trig.once sched, JobFun.postPlay (prayerFile key)⟩)

/-- The per-event loop of `schedule_prayers_for_date`, processing the
prayer keys in order while threading the JobStore contents (the source
re-reads `scheduler.get_jobs()` on every iteration, so jobs added for
earlier keys are visible); a raising iteration returns what was
accumulated so far. -/
def schedStep (cfg : SchedCfg) (tol : Int) (hist : List PlayEntry) :
    List String → List Job → Nat → List Job × Nat
  | [], jobs, cnt => (jobs, cnt)
  | key :: rest, jobs, cnt =>
    match keyOutcome cfg tol hist key with
    | none => (jobs, cnt)
    | some none => schedStep cfg tol hist rest jobs cnt
    | some (some jb) =>
      if (jobs.map Job.id).contains jb.id then schedStep cfg tol hist rest jobs cnt
      else schedStep cfg tol hist rest (jobs ++ [jb]) (cnt + 1)

/-- `schedule_prayers_for_date` (server.py lines 532-659): returns the
JobStore contents after the call together with the count of azan jobs
newly installed. -/
def schedulePrayersForDate (cfg : SchedCfg) (tol : Int) (hist : List PlayEntry)
    (jobs : List Job) : List Job × Nat :=
  schedStep cfg tol hist prayerKeys jobs 0

/-- 00:05 local on the day after `cfg`'s date
(`datetime.combine(today + timedelta(days=1), min.time()) + timedelta(minutes=5)`). -/
def tomorrow0005 (cfg : SchedCfg) : Int := cfg.dayStart + 86400 + 300

/-- `schedule_today_and_rescheduler` (server.py lines 660-711): schedule
today's prayers, install the one-shot `rescheduler-daily` job at 00:05
tomorrow if absent, and if nothing was scheduled install the 5-minute
`missed-scheduler` interval job if absent. -/
def scheduleTodayAndRescheduler (cfg : SchedCfg) (tol : Int) (hist : List PlayEntry)
    (jobs : List Job) : List Job :=
  let r := schedulePrayersForDate cfg tol hist jobs
  let j1 := r.1
  let added := r.2
  let j2 :=
    if (j1.map Job.id).contains "rescheduler-daily" then j1
    else j1 ++ [⟨"rescheduler-daily", Trig.once (tomorrow0005 cfg), JobFun.reschedDaily⟩]
  if added = 0 then
    if (j2.map Job.id).contains "missed-scheduler" then j2
    else j2 ++ [⟨"missed-scheduler", Trig.every 5, JobFun.missedSched⟩]
  else
    if (j2.map Job.id).contains "rescheduler-daily" then j2
    else j2 ++ [⟨"rescheduler-daily", Trig.once (tomorrow0005 cfg), JobFun.reschedDaily⟩]

/-- A firing of the one-shot `rescheduler-daily` job: APScheduler removes
the exhausted `DateTrigger` job, then `_reschedule_daily_job` (server.py
lines 314-329) runs `schedule_prayers_for_date` for the current day only
and does not reinstall itself. Returns the new JobStore contents and the
list of date strings passed to `schedule_prayers_for_date`. -/
def fireReschedDaily (cfg : SchedCfg) (tol : Int) (hist : List PlayEntry)
    (jobs : List Job) : List Job × List String :=
  let jobs1 := jobs.filter fun j => j.id ≠ "rescheduler-daily"
  ((schedulePrayersForDate cfg tol hist jobs1).1, [cfg.dateStr])

/-- The missed-scheduler loop state: the per-date attempt counter
(`MISSED_SCHED_ATTEMPTS[today]`, for a fixed current date) and the JobStore. -/
structure MissedState where
  attempts : Nat
  jobs : List Job
deriving DecidableEq

/-- One firing of `_missed_scheduler_wrapper` (server.py lines 332-377):
bump the attempt counter, retry today's scheduling; on success remove the
recovery job and reconfirm the daily rescheduler; after 6 unsuccessful
attempts replace the recovery job by an hourly interval job. -/
def fireMissedScheduler (cfg : SchedCfg) (tol : Int) (hist : List PlayEntry)
    (ms : MissedState) : MissedState :=
  let attempts := ms.attempts + 1
  let r := schedulePrayersForDate cfg tol hist ms.jobs
  let j1 := r.1
  let cnt := r.2
  if cnt > 0 then
    let j2 := j1.filter fun j => j.id ≠ "missed-scheduler"
    let j3 :=
      if (j2.map Job.id).contains "rescheduler-daily" then j2
      else j2 ++ [⟨"rescheduler-daily", Trig.once (tomorrow0005 cfg), JobFun.reschedDaily⟩]
    ⟨attempts, j3⟩
  else if 6 ≤ attempts then
    ⟨attempts, (j1.filter fun j => j.id ≠ "missed-scheduler") ++
      [⟨"missed-scheduler", Trig.every 60, JobFun.missedSched⟩]⟩
  else
    ⟨attempts, j1⟩

/-- One polling observation of the coordinator inside `monitor_playback`:
whether the transport/track queries raised, and the reported transport
state, track uri, track duration and track position strings (the source
reads `duration` with default `'0:02:10'` and `position` with default
`'0:00:00'`; a missing key is modelled by that default value). -/
structure Obs where
  failPoll : Bool
  state : String
  uri : String
  duration : String
  position : String
deriving DecidableEq

/-- Environment for one monitoring session: the value of the module-global
`AZAN_STARTED` the monitor reads, whether the stop/play calls of the single
resume attempt raise, and whether the restore-phase `play_uri` raises per
device. -/
structure MonEnv where
  azanStarted : Bool
  resumeStopFails : Bool
  resumePlayFails : Bool
  restorePlayFails : String → Bool

/-- The device calls issued by the single resume attempt (server.py lines
1287-1317): stop, re-play of the azan URI, a best-effort seek to the last
known position (issued once, never retried), and best-effort rejoin of the
non-coordinator members. An exception from stop or play aborts the rest of
the attempt but the monitoring loop continues. -/
def resumeCalls (env : MonEnv) (coordUid url pos : String) (speakers : List Speaker) :
    List DevCall :=
  if env.resumeStopFails then [DevCall.stop coordUid]
  else if env.resumePlayFails then [DevCall.stop coordUid, DevCall.playUri coordUid url]
  else
    [DevCall.stop coordUid, DevCall.playUri coordUid url, DevCall.seek coordUid pos] ++
      (speakers.filter fun s => s.uid ≠ coordUid && !s.isCoordinator).map
        (fun s => DevCall.joinGrp s.uid coordUid)

/-- The polling loop of `monitor_playback` (server.py lines 1249-1321),
driven by the finite sequence of observations the world supplies within
the 3-minute budget. Carries the last known azan position and the
`resume_attempted` flag; returns the ordered device calls issued. A poll
exception, a STOPPED state on the azan URI, a position at or past the
track duration, or a malformed duration/position string (which makes
`int()` raise) ends the loop. -/
def monLoop (env : MonEnv) (coordUid : String) (speakers : List Speaker) (url : String) :
    List Obs → Option String → Bool → List DevCall
  | [], _, _ => []
  | o :: rest, lastPos, resumed =>
    if o.failPoll then []
    else if o.state = "STOPPED" && o.uri = url then []
    else if o.uri = url then
      let dparts := pySplit ':' o.duration
      let durOpt : Option Nat := if dparts.length = 3 then hmsSecs dparts else some 130
      match durOpt with
      | none => []
      | some dur =>
        let pparts := pySplit ':' o.position
        if pparts.length = 3 then
          match hmsSecs pparts with
          | none => []
          | some pos =>
            if dur ≤ pos then []
            else monLoop env coordUid speakers url rest (some o.position) resumed
        else monLoop env coordUid speakers url rest (some o.position) resumed
    else
      if !env.azanStarted then monLoop env coordUid speakers url rest lastPos resumed
      else if resumed then monLoop env coordUid speakers url rest lastPos resumed
      else
        match lastPos with
        | none => monLoop env coordUid speakers url rest none resumed
        | some p =>
          if p = "" || p = "0:00:00" then monLoop env coordUid speakers url rest (some p) resumed
          else
            resumeCalls env coordUid url p speakers ++
              monLoop env coordUid speakers url rest (some p) true

/-- Is the snapped URI a live stream rather than a locally served file
(`('sid=' in uri) or ('/audio/' not in uri)`)? -/
def isStreamUri (uri : String) : Bool :=
  containsSub uri "sid=" || !(containsSub uri "/audio/")

/-- Restoration of one device from its snapshot (server.py lines
1327-1374): restore volume, unjoin non-coordinators, and if the device was
previously playing restore its URI — with a best-effort seek to the
snapped position only for non-stream URIs whose position is truthy and
not `NOT_IMPLEMENTED`; a raising restore `play_uri` skips the seek. -/
def restoreDevice (env : MonEnv) (coordUid : String) (snapshot : List (String × Snap))
    (s : Speaker) : List DevCall :=
  match snapshot.lookup s.uid with
  | none => []
  | some snap =>
    [DevCall.setVolume s.uid snap.volume] ++
      (if s.uid = coordUid then [] else [DevCall.unjoin s.uid]) ++
      (if snap.state = "PLAYING" && !(snap.uri = "") then
        if isStreamUri snap.uri then [DevCall.playUri s.uid snap.uri]
        else if env.restorePlayFails s.uid then [DevCall.playUri s.uid snap.uri]
        else
          [DevCall.playUri s.uid snap.uri] ++
            (if !(snap.position = "") && !(snap.position = "NOT_IMPLEMENTED") then
              [DevCall.seek s.uid snap.position]
            else [])
      else [])

/-- The whole restoration pass over the session's speakers. -/
def restoreAll (env : MonEnv) (coordUid : String) (snapshot : List (String × Snap))
    (speakers : List Speaker) : List DevCall :=
  speakers.flatMap (restoreDevice env coordUid snapshot)

/-- An event in the ordered execution trace of `monitor_playback`'s tail:
either a device call or the clearing of the in-process lock. -/
inductive MonEvent
  | call (c : DevCall)
  | lockCleared
deriving DecidableEq

/-- Result of one full `monitor_playback` run. -/
structure MonResult where
  loopCalls : List DevCall
  restoreCalls : List DevCall
  events : List MonEvent
  finalState : ServerState
deriving DecidableEq

/-- `monitor_playback` (server.py lines 1237-1391): run the polling loop,
then — in this order — clear `PLAYBACK_ACTIVE` and `AZAN_LOCK`, then
restore every snapshotted device. The event list records that order. -/
def monitorRun (st : ServerState) (env : MonEnv) (coordUid : String)
    (speakers : List Speaker) (url : String) (obs : List Obs) : MonResult :=
  let lc := monLoop env coordUid speakers url obs none false
  let rc := restoreAll env coordUid st.snapshot speakers
  { loopCalls := lc
    restoreCalls := rc
    events := lc.map MonEvent.call ++ MonEvent.lockCleared :: rc.map MonEvent.call
    finalState := { st with playbackActive := false, azanLock := false } }

/-- Is a device call a `play_uri` on a speaker? -/
def isPlayCall : DevCall → Bool
  | DevCall.playUri _ _ => true
  | _ => false

/-- Number of speaker `play_uri` attempts in a call trace. -/
def countPlay (cs : List DevCall) : Nat := (cs.filter isPlayCall).length

/-- The speaker a device call addresses (`none` for microservice calls). -/
def callUid : DevCall → Option String
  | DevCall.cloudPlay _ => none
  | DevCall.localPlay _ => none
  | DevCall.playUri u _ => some u
  | DevCall.stop u => some u
  | DevCall.seek u _ => some u
  | DevCall.setVolume u _ => some u
  | DevCall.joinGrp u _ => some u
  | DevCall.unjoin u => some u

/-- The calls of a trace addressed to one speaker. -/
def callsFor (uid : String) (cs : List DevCall) : List DevCall :=
  cs.filter fun c => callUid c == some uid

/- Concrete fixtures used by witnesses and counterexamples. -/

/-- Fresh module state at process start. -/
def stIdle : ServerState := ⟨false, false, false, [], []⟩

/-- Module state while a session holds the in-process lock. -/
def stLocked : ServerState := ⟨true, false, false, [], []⟩

/-- A coordinator speaker. -/
def spkC : Speaker := ⟨"c", "Pool", 20, true⟩

/-- A member speaker. -/
def spkM : Speaker := ⟨"m", "Boy 1", 30, false⟩

/-- Environment where cloud and local control both fail and the direct
Sonos path starts and verifies successfully. -/
def envOk : PlayEnv :=
  { fallback := Except.error ()
    speakers := [spkC, spkM]
    coordInfoFails := false
    coordUri := "x-sonos-spotify:track"
    coordPos := "0:01:00"
    coordState := "PLAYING"
    snapFails := fun _ => false
    localIp := "192.0.2.1"
    playFails := false
    postFails := false
    postUri := "http://192.0.2.1:5000/audio/azan.mp3"
    postState := "PLAYING"
    now := 45000 }

/-- Environment where the cloud microservice handles playback. -/
def envCloud : PlayEnv := { envOk with fallback := Except.ok ⟨"ok", "cloud"⟩ }

/-- A play-history containing an on-time azan entry for a 12:30 dhuhr
(scheduled second 45000 of the day, played 2 minutes later). -/
def histDhuhr : List PlayEntry := [⟨"azan.mp3", 45120⟩]

/-- Scheduling context for 2025-06-01 with only dhuhr at 12:30 known,
queried at second 1000 of that day. -/
def cfgD : SchedCfg :=
  ⟨"2025-06-01", 0, (fun k => if k = "dhuhr" then some "12:30" else none), 1000⟩

/-- Scheduling context for a day on which the Time Oracle yields nothing. -/
def cfgNone : SchedCfg := ⟨"2025-06-02", 86400, (fun _ => none), 90000⟩

/-- Monitoring environment reading the module-global `AZAN_STARTED`, which
`play_audio` never sets (its assignments are function-local). -/
def mEnvOff : MonEnv := ⟨false, false, false, fun _ => false⟩

/-- Monitoring environment as it would be had `play_audio` declared
`global AZAN_STARTED` before setting it on confirmed start. -/
def mEnvOn : MonEnv := ⟨true, false, false, fun _ => false⟩

/-- The azan URL of the fixture session. -/
def urlA : String := "http://192.0.2.1:5000/audio/azan.mp3"

/-- A poll trace: the azan is seen playing at 0:00:30, then an external
interruption replaces the track, and the divergence persists once more. -/
def obsDiverge : List Obs :=
  [⟨false, "PLAYING", urlA, "0:02:10", "0:00:30"⟩,
   ⟨false, "PLAYING", "x-sonos-spotify:other", "0:03:00", "0:00:05"⟩,
   ⟨false, "PLAYING", "x-sonos-spotify:other", "0:03:00", "0:00:10"⟩]

/-- Module state at monitoring time: lock held, one snapshotted device
that was playing a locally served file. -/
def stMon : ServerState :=
  ⟨true, true, false, [("c", ⟨20, "http://192.0.2.1:5000/audio/prior.mp3", "0:01:00", "PLAYING"⟩)], []⟩

/-- Scheduling context for 2025-06-02 (the day the daily rescheduler
fires), with dhuhr at 12:30 known. -/
def cfgD2 : SchedCfg :=
  ⟨"2025-06-02", 86400, (fun k => if k = "dhuhr" then some "12:30" else none), 86400 + 1000⟩

/-- Missed-scheduler state after five unsuccessful attempts. -/
def msFive : MissedState := ⟨5, [⟨"missed-scheduler", Trig.every 5, JobFun.missedSched⟩]⟩

/- General lemmas about the embedded definitions. -/

theorem playDirect_status (st : ServerState) (env : PlayEnv) (f : String) :
    (playDirect st env f).status = "success" ∨ (playDirect st env f).status = "error" := by
  unfold playDirect
  split
  · exact Or.inr rfl
  · split_ifs <;> first | exact Or.inl rfl | exact Or.inr rfl

theorem playAudio_status (st : ServerState) (env : PlayEnv) (req : Option String) :
    (playAudio st env req).status = "success" ∨ (playAudio st env req).status = "error" := by
  unfold playAudio
  split
  · exact Or.inr rfl
  · rcases env.fallback with e | r
    · exact Or.inr rfl
    · dsimp only
      split
      · exact Or.inl rfl
      · exact playDirect_status st env _

theorem playDirect_code (st : ServerState) (env : PlayEnv) (f : String) :
    (playDirect st env f).code ≠ 429 := by
  unfold playDirect
  split
  · simp
  · split_ifs <;> simp

theorem playAudio_code429 (st : ServerState) (env : PlayEnv) (req : Option String) :
    (playAudio st env req).code = 429 → st.azanLock = true := by
  unfold playAudio
  split
  · intro _; assumption
  · rcases env.fallback with e | r
    · intro h; simp at h
    · dsimp only
      split
      · intro h; simp at h
      · intro h; exact absurd h (playDirect_code st env _)

theorem schedStep_extends (cfg : SchedCfg) (tol : Int) (hist : List PlayEntry) :
    ∀ (keys : List String) (jobs : List Job) (cnt : Nat),
      ∃ tail, (schedStep cfg tol hist keys jobs cnt).1 = jobs ++ tail := by
  intro keys
  induction keys with
  | nil => intro jobs cnt; exact ⟨[], (List.append_nil jobs).symm⟩
  | cons k rest ih =>
    intro jobs cnt
    unfold schedStep
    cases hk : keyOutcome cfg tol hist k with
    | none => exact ⟨[], (List.append_nil jobs).symm⟩
    | some o =>
      cases o with
      | none => exact ih jobs cnt
      | some jb =>
        dsimp only
        split_ifs with hmem
        · exact ih jobs cnt
        · obtain ⟨tail, ht⟩ := ih (jobs ++ [jb]) (cnt + 1)
          exact ⟨[jb] ++ tail, by rw [ht, List.append_assoc]⟩

theorem schedStep_mem (cfg : SchedCfg) (tol : Int) (hist : List PlayEntry) :
    ∀ (keys : List String) (jobs : List Job) (cnt : Nat) (j : Job),
      j ∈ (schedStep cfg tol hist keys jobs cnt).1 →
      j ∈ jobs ∨ ∃ k, k ∈ keys ∧ keyOutcome cfg tol hist k = some (some j) := by
  intro keys
  induction keys with
  | nil => intro jobs cnt j hj; exact Or.inl hj
  | cons k rest ih =>
    intro jobs cnt j hj
    rw [schedStep] at hj
    cases hk : keyOutcome cfg tol hist k with
    | none => rw [hk] at hj; exact Or.inl hj
    | some o =>
      cases o with
      | none =>
        rw [hk] at hj
        rcases ih jobs cnt j hj with h | ⟨k', hk', ho⟩
        · exact Or.inl h
        · exact Or.inr ⟨k', List.mem_cons_of_mem _ hk', ho⟩
      | some jb =>
        rw [hk] at hj
        dsimp only at hj
        by_cases hmem : ((jobs.map Job.id).contains jb.id) = true
        · rw [if_pos hmem] at hj
          rcases ih jobs cnt j hj with h | ⟨k', hk', ho⟩
          · exact Or.inl h
          · exact Or.inr ⟨k', List.mem_cons_of_mem _ hk', ho⟩
        · rw [if_neg hmem] at hj
          rcases ih (jobs ++ [jb]) (cnt + 1) j hj with h | ⟨k', hk', ho⟩
          · rcases List.mem_append.1 h with h' | h'
            · exact Or.inl h'
            · have : j = jb := by simpa using h'
              exact Or.inr ⟨k, List.mem_cons_self _ _, by rw [this]; exact hk⟩
          · exact Or.inr ⟨k', List.mem_cons_of_mem _ hk', ho⟩

theorem keyOutcome_spec (cfg : SchedCfg) (tol : Int) (hist : List PlayEntry)
    (key : String) (j : Job) (h : keyOutcome cfg tol hist key = some (some j)) :
    ∃ tstr secs, cfg.times key = some tstr ∧ hmSecs tstr = some secs ∧
      j = ⟨azanId cfg.dateStr key, Trig.once (cfg.dayStart + (secs : Int)),
            JobFun.postPlay (prayerFile key)⟩ ∧
      playedOnTime hist key (cfg.dayStart + (secs : Int)) tol = false ∧
      cfg.now < cfg.dayStart + (secs : Int) := by
  unfold keyOutcome at h
  cases ht : cfg.times key with
  | none => rw [ht] at h; simp at h
  | some tstr =>
    rw [ht] at h
    dsimp only at h
    by_cases hE : tstr = ""
    · rw [if_pos hE] at h; simp at h
    · rw [if_neg hE] at h
      cases hm : hmSecs tstr with
      | none => rw [hm] at h; simp at h
      | some secs =>
        rw [hm] at h
        dsimp only at h
        split_ifs at h with h1 h2
        · simp at h
        · simp at h
        · have hj : j = ⟨azanId cfg.dateStr key, Trig.once (cfg.dayStart + (secs : Int)),
              JobFun.postPlay (prayerFile key)⟩ := by
            simpa using h.symm
          have hOn : playedOnTime hist key (cfg.dayStart + (secs : Int)) tol = false :=
            Bool.eq_false_iff.mpr h2
          have hfut : cfg.now < cfg.dayStart + (secs : Int) := by
            by_contra hle
            push_neg at hle
            apply h1
            simp [hle, hOn]
          exact ⟨tstr, secs, rfl, hm, hj, hOn, hfut⟩

theorem schedStep_idem (cfg : SchedCfg) (tol : Int) (hist : List PlayEntry) :
    ∀ (keys : List String) (jobs : List Job) (cnt cnt' : Nat),
      schedStep cfg tol hist keys (schedStep cfg tol hist keys jobs cnt).1 cnt' =
        ((schedStep cfg tol hist keys jobs cnt).1, cnt') := by
  intro keys
  induction keys with
  | nil => intro jobs cnt cnt'; rfl
  | cons k rest ih =>
    intro jobs cnt cnt'
    cases hk : keyOutcome cfg tol hist k with
    | none => simp only [schedStep, hk]
    | some o =>
      cases o with
      | none =>
        simp only [schedStep, hk]
        exact ih jobs cnt cnt'
      | some jb =>
        by_cases hmem : ((jobs.map Job.id).contains jb.id) = true
        · obtain ⟨tail, htail⟩ := schedStep_extends cfg tol hist rest jobs cnt
          have hmem2 : (((schedStep cfg tol hist rest jobs cnt).1.map Job.id).contains jb.id)
              = true := by
            rw [List.elem_iff] at hmem ⊢
            rw [htail, List.map_append]
            exact List.mem_append_left _ hmem
          simp only [schedStep, hk, if_pos hmem, if_pos hmem2]
          exact ih jobs cnt cnt'
        · obtain ⟨tail, htail⟩ := schedStep_extends cfg tol hist rest (jobs ++ [jb]) (cnt + 1)
          have hmem2 : (((schedStep cfg tol hist rest (jobs ++ [jb]) (cnt + 1)).1.map
              Job.id).contains jb.id) = true := by
            rw [List.elem_iff]
            rw [htail, List.map_append, List.map_append]
            exact List.mem_append_left _ (List.mem_append_right _ (by simp))
          simp only [schedStep, hk, if_neg hmem, if_pos hmem2]
          exact ih (jobs ++ [jb]) (cnt + 1) cnt'

theorem schedStep_nodup (cfg : SchedCfg) (tol : Int) (hist : List PlayEntry) :
    ∀ (keys : List String) (jobs : List Job) (cnt : Nat),
      (jobs.map Job.id).Nodup → ((schedStep cfg tol hist keys jobs cnt).1.map Job.id).Nodup := by
  intro keys
  induction keys with
  | nil => intro jobs cnt h; exact h
  | cons k rest ih =>
    intro jobs cnt h
    cases hk : keyOutcome cfg tol hist k with
    | none => simpa only [schedStep, hk] using h
    | some o =>
      cases o with
      | none =>
        simp only [schedStep, hk]
        exact ih jobs cnt h
      | some jb =>
        by_cases hmem : ((jobs.map Job.id).contains jb.id) = true
        · simp only [schedStep, hk, if_pos hmem]
          exact ih jobs cnt h
        · simp only [schedStep, hk, if_neg hmem]
          apply ih
          rw [List.map_append]
          simp only [List.map_cons, List.map_nil]
          rw [List.nodup_append]
          refine ⟨h, List.nodup_singleton _, ?_⟩
          intro a ha hb
          simp only [List.mem_singleton] at hb
          subst hb
          rw [List.elem_iff] at hmem
          exact hmem ha

theorem azanId_data (d k : String) :
    (azanId d k).data = 'a' :: 'z' :: 'a' :: 'n' :: '-' :: (d.data ++ '-' :: k.data) := by
  show ((("azan-" ++ d) ++ "-") ++ k).data = _
  have h : ∀ a b : String, (a ++ b).data = a.data ++ b.data := fun a b => rfl
  rw [h, h, h]
  simp

theorem azanId_inj (d k1 k2 : String) (h : azanId d k1 = azanId d k2) : k1 = k2 := by
  have hd := congrArg String.data h
  rw [azanId_data, azanId_data] at hd
  simp only [List.cons.injEq, true_and] at hd
  have := List.append_cancel_left hd
  simp only [List.cons.injEq, true_and] at this
  exact String.ext this

theorem azanId_ne_resched (d k : String) : azanId d k ≠ "rescheduler-daily" := by
  intro h
  have hd := congrArg String.data h
  rw [azanId_data] at hd
  simp at hd

theorem azanId_ne_missed (d k : String) : azanId d k ≠ "missed-scheduler" := by
  intro h
  have hd := congrArg String.data h
  rw [azanId_data] at hd
  simp at hd


theorem isWs_lowCh (c : Char) : isWsChar (lowCh c) = isWsChar c := by
  unfold lowCh
  by_cases h : (65 ≤ c.toNat && c.toNat ≤ 90) = true
  · rw [if_pos h]
    simp only [Bool.and_eq_true, decide_eq_true_eq] at h
    have hv : c.toNat + 32 < 55296 := by omega
    have ht : (Char.ofNat (c.toNat + 32)).toNat = c.toNat + 32 := by
      unfold Char.ofNat
      rw [dif_pos (Or.inl hv)]
      rfl
    have hL : isWsChar (Char.ofNat (c.toNat + 32)) = false := by
      unfold isWsChar
      rw [ht]
      simp only [Bool.or_eq_false_iff, Bool.and_eq_false_iff]
      constructor
      · simp only [beq_eq_false_iff_ne, ne_eq]
        omega
      · right
        simp only [decide_eq_false_iff_not, not_le]
        omega
    have hR : isWsChar c = false := by
      unfold isWsChar
      simp only [Bool.or_eq_false_iff, Bool.and_eq_false_iff]
      constructor
      · simp only [beq_eq_false_iff_ne, ne_eq]
        omega
      · right
        simp only [decide_eq_false_iff_not, not_le]
        omega
    rw [hL, hR]
  · rw [if_neg h]

theorem startsL_iff (n : List Char) : ∀ h : List Char, startsL n h = true ↔ n <+: h := by
  induction n with
  | nil => intro h; simp [startsL]
  | cons a as ih =>
    intro h
    cases h with
    | nil => simp [startsL]
    | cons b bs =>
      rw [startsL, List.cons_prefix_cons]
      rw [Bool.and_eq_true, beq_iff_eq]
      exact and_congr Iff.rfl (ih bs)

theorem hasSubL_iff (n : List Char) : ∀ h : List Char, hasSubL n h = true ↔ n <:+: h := by
  intro h
  induction h with
  | nil =>
    rw [hasSubL, startsL_iff]
    constructor
    · intro hp; exact hp.isInfix
    · intro hi
      rw [List.infix_nil] at hi
      subst hi
      exact List.nil_prefix
  | cons b bs ih =>
    rw [hasSubL, Bool.or_eq_true, startsL_iff, ih, List.infix_cons_iff]

theorem infix_dropWhile_iff (p : Char → Bool) (a : Char) (as : List Char)
    (ha : p a = false) : ∀ l : List Char, (a :: as) <:+: l.dropWhile p ↔ (a :: as) <:+: l := by
  intro l
  induction l with
  | nil => simp
  | cons c cs ih =>
    by_cases hc : p c = true
    · rw [List.dropWhile_cons_of_pos hc, ih, List.infix_cons_iff]
      constructor
      · intro h; exact Or.inr h
      · rintro (h | h)
        · rw [List.cons_prefix_cons] at h
          rw [h.1] at ha
          rw [ha] at hc
          exact absurd hc (by simp)
        · exact h
    · rw [List.dropWhile_cons_of_neg hc]

theorem infix_rev (x y : List Char) : x <:+: y.reverse ↔ x.reverse <:+: y := by
  constructor
  · intro h
    have := List.reverse_infix.mpr h
    rwa [List.reverse_reverse] at this
  · intro h
    have := List.reverse_infix.mpr h
    rwa [List.reverse_reverse] at this

theorem fajr_strip (l : List Char) :
    (['f','a','j','r'] <:+: pyStripL l) ↔ (['f','a','j','r'] <:+: l) := by
  unfold pyStripL
  rw [infix_rev]
  show (['r','j','a','f'] <:+: ((l.dropWhile isWsChar).reverse).dropWhile isWsChar) ↔ _
  rw [infix_dropWhile_iff isWsChar 'r' ['j','a','f'] (by decide)]
  have : (['r','j','a','f'] : List Char) = (['f','a','j','r'] : List Char).reverse := by decide
  rw [this, List.reverse_infix]
  exact infix_dropWhile_iff isWsChar 'f' ['a','j','r'] (by decide) l

theorem pyLower_pyStrip (s : String) :
    (pyLower (pyStrip s)).data = pyStripL ((pyLower s).data) := by
  show (pyStripL s.data).map lowCh = pyStripL (s.data.map lowCh)
  unfold pyStripL
  have hP : (isWsChar ∘ lowCh) = isWsChar := funext isWs_lowCh
  rw [List.dropWhile_map, hP, ← List.map_reverse, List.dropWhile_map, hP, ← List.map_reverse]

theorem containsSub_strip_lower (s : String) :
    containsSub (pyLower (pyStrip s)) "fajr" = containsSub (pyLower s) "fajr" := by
  unfold containsSub
  rw [pyLower_pyStrip]
  by_cases hx : hasSubL "fajr".data (pyStripL (pyLower s).data) = true
  · rw [hx]
    symm
    rw [hasSubL_iff]
    exact (fajr_strip ((pyLower s).data)).mp ((hasSubL_iff _ _).mp hx)
  · rw [Bool.not_eq_true] at hx
    rw [hx]
    symm
    rw [← Bool.not_eq_true, hasSubL_iff]
    intro hcon
    rw [← Bool.not_eq_true] at hx
    exact hx ((hasSubL_iff _ _).mpr ((fajr_strip ((pyLower s).data)).mpr hcon))


theorem snapLoop_noPlay (cUri cPos cState : String) (fails : String → Bool) :
    ∀ speakers : List Speaker, countPlay (snapLoop cUri cPos cState fails speakers).2.1 = 0 := by
  intro speakers
  induction speakers with
  | nil => rfl
  | cons s rest ih =>
    rw [snapLoop]
    rcases hr : snapLoop cUri cPos cState fails rest with ⟨m, r2⟩
    rcases r2 with ⟨cs, e⟩
    rw [hr] at ih
    dsimp only
    split_ifs
    · exact ih
    · show countPlay (DevCall.setVolume s.uid 50 :: cs) = 0
      unfold countPlay at ih ⊢
      rw [List.filter_cons_of_neg (by simp [isPlayCall])]
      exact ih

theorem countPlay_append (a b : List DevCall) :
    countPlay (a ++ b) = countPlay a + countPlay b := by
  unfold countPlay
  rw [List.filter_append, List.length_append]

theorem restoreDevice_uid (env : MonEnv) (cu : String) (snapshot : List (String × Snap))
    (s : Speaker) (c : DevCall) (hc : c ∈ restoreDevice env cu snapshot s) :
    callUid c = some s.uid := by
  unfold restoreDevice at hc
  cases hl : snapshot.lookup s.uid with
  | none => rw [hl] at hc; simp at hc
  | some snap =>
    rw [hl] at hc
    dsimp only at hc
    rcases List.mem_append.1 hc with h12 | h3
    · rcases List.mem_append.1 h12 with h1 | h2
      · simp only [List.mem_singleton] at h1
        subst h1; rfl
      · split_ifs at h2
        · simp at h2
        · simp only [List.mem_singleton] at h2
          subst h2; rfl
    · split_ifs at h3 with hA hB hC hD
      · simp only [List.mem_singleton] at h3
        subst h3; rfl
      · simp only [List.mem_singleton] at h3
        subst h3; rfl
      · simp only [List.mem_append, List.mem_singleton] at h3
        rcases h3 with rfl | rfl <;> rfl
      · simp only [List.mem_append, List.mem_singleton, List.not_mem_nil, or_false] at h3
        subst h3; rfl
      · simp at h3

theorem callsFor_restoreAll (env : MonEnv) (cu : String) (snapshot : List (String × Snap)) :
    ∀ (speakers : List Speaker) (s : Speaker), (speakers.map Speaker.uid).Nodup →
      s ∈ speakers →
      callsFor s.uid (restoreAll env cu snapshot speakers) = restoreDevice env cu snapshot s := by
  intro speakers
  induction speakers with
  | nil => intro s _ hs; simp at hs
  | cons a rest ih =>
    intro s hnd hs
    have hnd' : (rest.map Speaker.uid).Nodup := (List.nodup_cons.1 (by simpa using hnd)).2
    have hnin : a.uid ∉ rest.map Speaker.uid := (List.nodup_cons.1 (by simpa using hnd)).1
    unfold restoreAll callsFor
    rw [List.flatMap_cons, List.filter_append]
    rcases List.mem_cons.1 hs with rfl | hmem
    · have h1 : (restoreDevice env cu snapshot s).filter (fun c => callUid c == some s.uid) =
          restoreDevice env cu snapshot s :=
        List.filter_eq_self.mpr fun c hc => by
          rw [restoreDevice_uid env cu snapshot s c hc]; simp
      have h2 : (rest.flatMap (restoreDevice env cu snapshot)).filter
          (fun c => callUid c == some s.uid) = [] := by
        apply List.filter_eq_nil_iff.mpr
        intro c hc
        obtain ⟨b, hb, hcb⟩ := List.mem_flatMap.1 hc
        rw [restoreDevice_uid env cu snapshot b c hcb]
        have : b.uid ≠ s.uid := by
          intro he
          exact hnin (he ▸ List.mem_map_of_mem Speaker.uid hb)
        simp [this]
      rw [h1, h2, List.append_nil]
    · have ha : a.uid ≠ s.uid := by
        intro he
        exact hnin (he ▸ List.mem_map_of_mem Speaker.uid hmem)
      have h1 : (restoreDevice env cu snapshot a).filter (fun c => callUid c == some s.uid) = [] := by
        apply List.filter_eq_nil_iff.mpr
        intro c hc
        rw [restoreDevice_uid env cu snapshot a c hc]
        simp [ha]
      rw [h1, List.nil_append]
      have := ih s hnd' hmem
      unfold restoreAll callsFor at this
      exact this

/- Claim theorems (with their witnesses and counterexamples). -/

/-- C1 counterexample: with a PlayedMarker for (2025-06-01, dhuhr) on the
ledger within the tolerance window of the computed time, a non-forced play
trigger for dhuhr does NOT return `skipped`: it returns success and issues
a playback call — `play_audio` never consults the ledger. -/
theorem play_trigger_ignores_ledger_cex :
    playedOnTime histDhuhr "dhuhr" 45000 5 = true ∧
    (playAudio ⟨false, false, false, [], histDhuhr⟩ envCloud (some "dhuhr.mp3")).status = "success" ∧
    (playAudio ⟨false, false, false, [], histDhuhr⟩ envCloud (some "dhuhr.mp3")).status ≠ "skipped" ∧
    (playAudio ⟨false, false, false, [], histDhuhr⟩ envCloud (some "dhuhr.mp3")).calls ≠ [] := by
  decide

/-- C1 (amended): a play trigger performs no dedup check — `play_audio`
only ever returns a success or an error status and never `skipped`; the
played-within-tolerance dedup check is consulted only by
`schedule_prayers_for_date`, which declines to install the azan job of an
event already played on time. -/
theorem play_trigger_no_dedup :
    (∀ st env req, (playAudio st env req).status = "success" ∨
      (playAudio st env req).status = "error") ∧
    (∀ cfg tol hist jobs key tstr secs,
      cfg.times key = some tstr → hmSecs tstr = some secs →
      playedOnTime hist key (cfg.dayStart + (secs : Int)) tol = true →
      azanId cfg.dateStr key ∉ jobs.map Job.id →
      azanId cfg.dateStr key ∉ (schedulePrayersForDate cfg tol hist jobs).1.map Job.id) := by
  constructor
  · exact playAudio_status
  · intro cfg tol hist jobs key tstr secs htime hsecs hplayed hnotin
    intro hmem
    obtain ⟨j, hj, hid⟩ := List.mem_map.1 hmem
    rcases schedStep_mem cfg tol hist prayerKeys jobs 0 j hj with hin | ⟨k, _, hko⟩
    · exact hnotin (hid ▸ List.mem_map_of_mem Job.id hin)
    · obtain ⟨tstr2, secs2, ht2, hm2, hjeq, hon2, _⟩ := keyOutcome_spec cfg tol hist k j hko
      have hkid : j.id = azanId cfg.dateStr k := by rw [hjeq]
      have hkk : k = key := azanId_inj cfg.dateStr k key (by rw [← hkid, hid])
      subst hkk
      rw [htime] at ht2
      have he1 : tstr2 = tstr := by injection ht2 with hh; exact hh.symm
      subst he1
      rw [hsecs] at hm2
      have he2 : secs2 = secs := by injection hm2 with hh; exact hh.symm
      subst he2
      rw [hplayed] at hon2
      exact absurd hon2 (by simp)

/-- Witness for C1 (amended) at concrete inputs. -/
theorem play_trigger_no_dedup_witness :
    ((playAudio stIdle envOk none).status = "success" ∨
      (playAudio stIdle envOk none).status = "error") ∧
    azanId "2025-06-01" "dhuhr" ∉ (schedulePrayersForDate cfgD 5 histDhuhr []).1.map Job.id :=
  ⟨play_trigger_no_dedup.1 stIdle envOk none,
   play_trigger_no_dedup.2 cfgD 5 histDhuhr [] "dhuhr" "12:30" 45000
     (by decide) (by decide) (by decide) (by decide)⟩

/-- C2 counterexample: for 2025-06-01 with dhuhr at 12:30 still in the
future, `scheduleForDate` installs exactly one job whose id is
`azan-2025-06-01-dhuhr` — not `play-2025-06-01-dhuhr`, and no
`prepare-2025-06-01-dhuhr` job exists. -/
theorem schedule_id_scheme_cex :
    (schedulePrayersForDate cfgD 5 [] []).1.map Job.id = ["azan-2025-06-01-dhuhr"] ∧
    "play-2025-06-01-dhuhr" ∉ (schedulePrayersForDate cfgD 5 [] []).1.map Job.id ∧
    "prepare-2025-06-01-dhuhr" ∉ (schedulePrayersForDate cfgD 5 [] []).1.map Job.id := by
  decide

/-- C2 (amended): `scheduleForDate` installs only jobs with ids of the
deterministic scheme `azan-{date}-{event}` (a single play job per future,
unsatisfied event; no prepare jobs); calling it twice with no intervening
PlayedMarker changes leaves the JobStore unchanged and installs zero new
jobs, and job ids remain duplicate-free. -/
theorem schedule_azan_ids_idempotent :
    (∀ cfg tol hist jobs j, j ∈ (schedulePrayersForDate cfg tol hist jobs).1 →
      j ∈ jobs ∨ ∃ k, k ∈ prayerKeys ∧ j.id = azanId cfg.dateStr k ∧
        j.fn = JobFun.postPlay (prayerFile k)) ∧
    (∀ cfg tol hist jobs,
      schedulePrayersForDate cfg tol hist (schedulePrayersForDate cfg tol hist jobs).1 =
        ((schedulePrayersForDate cfg tol hist jobs).1, 0)) ∧
    (∀ cfg tol hist jobs, (jobs.map Job.id).Nodup →
      ((schedulePrayersForDate cfg tol hist jobs).1.map Job.id).Nodup) := by
  refine ⟨?_, ?_, ?_⟩
  · intro cfg tol hist jobs j hj
    rcases schedStep_mem cfg tol hist prayerKeys jobs 0 j hj with h | ⟨k, hk, hko⟩
    · exact Or.inl h
    · obtain ⟨tstr, secs, _, _, hjeq, _, _⟩ := keyOutcome_spec cfg tol hist k j hko
      exact Or.inr ⟨k, hk, by rw [hjeq], by rw [hjeq]⟩
  · intro cfg tol hist jobs
    exact schedStep_idem cfg tol hist prayerKeys jobs 0 0
  · intro cfg tol hist jobs h
    exact schedStep_nodup cfg tol hist prayerKeys jobs 0 h

/-- Witness for C2 (amended) at a concrete date. -/
theorem schedule_azan_ids_idempotent_witness :
    schedulePrayersForDate cfgD 5 [] (schedulePrayersForDate cfgD 5 [] []).1 =
      ((schedulePrayersForDate cfgD 5 [] []).1, 0) ∧
    ((schedulePrayersForDate cfgD 5 [] []).1.map Job.id).Nodup :=
  ⟨schedule_azan_ids_idempotent.2.1 cfgD 5 [] [],
   schedule_azan_ids_idempotent.2.2 cfgD 5 [] [] (by decide)⟩

/-- C3: while the in-process lock (`AZAN_LOCK`) is held, any second play
trigger for any event returns HTTP 429 immediately, leaving the module
state — including the ZoneSnapshot map and the PlayedLedger — unchanged
and issuing no device calls; 429 is returned on no other path (failures
surface as 404/500), so rejection is distinct from failure. -/
theorem play_rejected_when_locked (st st2 : ServerState) (env env2 : PlayEnv)
    (req req2 : Option String) (h : st.azanLock = true) :
    playAudio st env req =
      ⟨"error", "Azan in progress, playback blocked.", 429, st, [], false⟩ ∧
    ((playAudio st2 env2 req2).code = 429 → st2.azanLock = true) := by
  constructor
  · unfold playAudio
    rw [if_pos h]
  · exact playAudio_code429 st2 env2 req2

/-- Witness for C3 with the lock concretely held. -/
theorem play_rejected_when_locked_witness :
    playAudio stLocked envOk (some "azan.mp3") =
      ⟨"error", "Azan in progress, playback blocked.", 429, stLocked, [], false⟩ ∧
    ((playAudio stIdle envOk none).code = 429 → stIdle.azanLock = true) :=
  play_rejected_when_locked stLocked stIdle envOk envOk (some "azan.mp3") none rfl


/-- C4: on the direct playback path, after the settle delay a start is
verified successfully exactly when the coordinator reports the requested
URI or a PLAYING transport state; on success the PlayedMarker is appended
to the ledger, on failure the lock is released, an error is returned and
the ledger is untouched; a marker is only ever written after a confirmed
start, and at most one play attempt is issued — no automatic retry. -/
theorem start_verification_marker :
    (∀ (st : ServerState) (env : PlayEnv) (f : String) (s0 : Speaker) (rest : List Speaker),
      env.speakers = s0 :: rest →
      env.coordInfoFails = false →
      (snapResult env).2.2 ≠ env.speakers.length →
      env.playFails = false → env.postFails = false →
      ((startConfirmed env f = true →
        (playDirect st env f).status = "success" ∧ (playDirect st env f).code = 200 ∧
        (playDirect st env f).newState.history = st.history ++ [⟨f, env.now⟩]) ∧
      (startConfirmed env f = false →
        (playDirect st env f).status = "error" ∧ (playDirect st env f).code = 500 ∧
        (playDirect st env f).newState.azanLock = false ∧
        (playDirect st env f).newState.history = st.history))) ∧
    (∀ st env f, (playDirect st env f).newState.history = st.history ∨
      (startConfirmed env f = true ∧ env.playFails = false ∧ env.postFails = false ∧
        (playDirect st env f).newState.history = st.history ++ [⟨f, env.now⟩])) ∧
    (∀ st env f, countPlay (playDirect st env f).calls ≤ 1) := by
  refine ⟨?_, ?_, ?_⟩
  · intro st env f s0 rest hsp h1 h2 h3 h4
    rw [hsp] at h2
    constructor
    · intro hC
      unfold playDirect
      rw [hsp]
      dsimp only
      rw [if_neg (by rw [h1]; simp), if_neg (by rw [← hsp]; rw [hsp]; exact h2),
        if_neg (by rw [h3]; simp), if_neg (by rw [h4]; simp), if_pos hC]
      exact ⟨rfl, rfl, rfl⟩
    · intro hC
      unfold playDirect
      rw [hsp]
      dsimp only
      rw [if_neg (by rw [h1]; simp), if_neg (by rw [← hsp]; rw [hsp]; exact h2),
        if_neg (by rw [h3]; simp), if_neg (by rw [h4]; simp), if_neg (by rw [hC]; simp)]
      exact ⟨rfl, rfl, rfl, rfl⟩
  · intro st env f
    unfold playDirect
    split
    · exact Or.inl rfl
    · split_ifs with hA hB hC hD hE
      · exact Or.inl rfl
      · exact Or.inl rfl
      · exact Or.inl rfl
      · exact Or.inl rfl
      · exact Or.inr ⟨hE, Bool.eq_false_iff.mpr hC, Bool.eq_false_iff.mpr hD, rfl⟩
      · exact Or.inl rfl
  · intro st env f
    unfold playDirect
    split
    · simp [countPlay]
    · have hvol : countPlay (snapResult env).2.1 = 0 := by
        unfold snapResult
        exact snapLoop_noPlay env.coordUri env.coordPos env.coordState env.snapFails env.speakers
      have hone : ∀ u v, countPlay [DevCall.playUri u v] = 1 := by
        intro u v; rfl
      have hnil : countPlay ([] : List DevCall) = 0 := rfl
      split_ifs <;> simp only [countPlay_append, hvol, hone, hnil] <;> omega

/-- Witness for C4 at a concrete verified session. -/
theorem start_verification_marker_witness :
    ((playDirect stIdle envOk "azan.mp3").status = "success" ∧
      (playDirect stIdle envOk "azan.mp3").code = 200 ∧
      (playDirect stIdle envOk "azan.mp3").newState.history =
        stIdle.history ++ [⟨"azan.mp3", envOk.now⟩]) ∧
    countPlay (playDirect stIdle envOk "azan.mp3").calls ≤ 1 :=
  ⟨(start_verification_marker.1 stIdle envOk "azan.mp3" spkC [spkM] rfl rfl
      (by decide) rfl rfl).1 (by decide),
   start_verification_marker.2.2 stIdle envOk "azan.mp3"⟩

/-- C5 (code bug): `play_audio` assigns `AZAN_STARTED` without a `global`
declaration, so the module flag the monitor reads stays false even after a
confirmed start; on a trace where the azan is seen playing and the URI
then diverges twice, the monitor issues no resume calls at all, although
with the intended global semantics the same trace produces exactly one
resume sequence (a single stop) despite two divergences. -/
theorem monitor_resume_never_fires :
    (playDirect stIdle envOk "azan.mp3").status = "success" ∧
    (playDirect stIdle envOk "azan.mp3").newState.azanStarted = false ∧
    monLoop ⟨(playDirect stIdle envOk "azan.mp3").newState.azanStarted, false, false,
        fun _ => false⟩ "c" [spkC, spkM] urlA obsDiverge none false = [] ∧
    (monLoop mEnvOn "c" [spkC, spkM] urlA obsDiverge none false).length = 4 ∧
    ((monLoop mEnvOn "c" [spkC, spkM] urlA obsDiverge none false).filter
      (fun c => c == DevCall.stop "c")).length = 1 := by
  decide



theorem sched_no_resched_id (cfg : SchedCfg) (tol : Int) (hist : List PlayEntry)
    (jobs : List Job) (hnotin : "rescheduler-daily" ∉ jobs.map Job.id) :
    "rescheduler-daily" ∉ (schedulePrayersForDate cfg tol hist jobs).1.map Job.id := by
  intro hmem
  obtain ⟨j, hj, hid⟩ := List.mem_map.1 hmem
  rcases schedStep_mem cfg tol hist prayerKeys jobs 0 j hj with h | ⟨k, _, hko⟩
  · exact hnotin (hid ▸ List.mem_map_of_mem Job.id h)
  · obtain ⟨_, _, _, _, hjeq, _, _⟩ := keyOutcome_spec cfg tol hist k j hko
    have : j.id = azanId cfg.dateStr k := by rw [hjeq]
    exact azanId_ne_resched cfg.dateStr k (by rw [← this, hid])

theorem sched_no_missed_id (cfg : SchedCfg) (tol : Int) (hist : List PlayEntry)
    (jobs : List Job) (hnotin : "missed-scheduler" ∉ jobs.map Job.id) :
    "missed-scheduler" ∉ (schedulePrayersForDate cfg tol hist jobs).1.map Job.id := by
  intro hmem
  obtain ⟨j, hj, hid⟩ := List.mem_map.1 hmem
  rcases schedStep_mem cfg tol hist prayerKeys jobs 0 j hj with h | ⟨k, _, hko⟩
  · exact hnotin (hid ▸ List.mem_map_of_mem Job.id h)
  · obtain ⟨_, _, _, _, hjeq, _, _⟩ := keyOutcome_spec cfg tol hist k j hko
    have : j.id = azanId cfg.dateStr k := by rw [hjeq]
    exact azanId_ne_missed cfg.dateStr k (by rw [← this, hid])

/-- C6 counterexample: the installed `rescheduler-daily` job is a
one-shot DateTrigger (not a daily recurrence); its firing calls
`scheduleForDate` for the current day only — not the next day — and does
not reinstall itself. -/
theorem daily_rescheduler_one_shot_cex :
    (fireReschedDaily cfgD2 5 []
      [⟨"rescheduler-daily", Trig.once 86700, JobFun.reschedDaily⟩]).2 = ["2025-06-02"] ∧
    "2025-06-03" ∉ (fireReschedDaily cfgD2 5 []
      [⟨"rescheduler-daily", Trig.once 86700, JobFun.reschedDaily⟩]).2 ∧
    "rescheduler-daily" ∉ (fireReschedDaily cfgD2 5 []
      [⟨"rescheduler-daily", Trig.once 86700, JobFun.reschedDaily⟩]).1.map Job.id ∧
    (scheduleTodayAndRescheduler cfgD 5 [] []).filter
      (fun j => j.id == "rescheduler-daily") =
      [⟨"rescheduler-daily", Trig.once 86700, JobFun.reschedDaily⟩] := by
  decide

/-- C6 (amended): `schedule_today_and_rescheduler` always leaves a job
with the fixed id `rescheduler-daily` installed, adding a one-shot job at
00:05 of the next day when absent (never duplicating it); each firing of
that job calls `scheduleForDate` for the then-current day only and removes
the job without reinstalling it. -/
theorem daily_rescheduler_amended :
    (∀ cfg tol hist jobs,
      "rescheduler-daily" ∈ (scheduleTodayAndRescheduler cfg tol hist jobs).map Job.id) ∧
    (∀ cfg tol hist jobs, "rescheduler-daily" ∉ jobs.map Job.id →
      (⟨"rescheduler-daily", Trig.once (tomorrow0005 cfg), JobFun.reschedDaily⟩ : Job) ∈
        scheduleTodayAndRescheduler cfg tol hist jobs) ∧
    (∀ cfg tol hist jobs, (fireReschedDaily cfg tol hist jobs).2 = [cfg.dateStr]) ∧
    (∀ cfg tol hist jobs,
      "rescheduler-daily" ∉ (fireReschedDaily cfg tol hist jobs).1.map Job.id) := by
  refine ⟨?_, ?_, ?_, ?_⟩
  · intro cfg tol hist jobs
    unfold scheduleTodayAndRescheduler
    dsimp only
    by_cases hc : (((schedulePrayersForDate cfg tol hist jobs).1.map Job.id).contains
        "rescheduler-daily") = true
    · rw [if_pos hc]
      have hm := List.elem_iff.mp hc
      split_ifs <;>
        first
          | exact hm
          | (rw [List.map_append]; exact List.mem_append_left _ hm)
    · rw [if_neg hc]
      have hm : "rescheduler-daily" ∈ ((schedulePrayersForDate cfg tol hist jobs).1 ++
          ([⟨"rescheduler-daily", Trig.once (tomorrow0005 cfg), JobFun.reschedDaily⟩] :
            List Job)).map Job.id := by
        rw [List.map_append]
        exact List.mem_append_right _ (by simp)
      split_ifs <;>
        first
          | exact hm
          | (rw [List.map_append]; exact List.mem_append_left _ hm)
  · intro cfg tol hist jobs hnotin
    unfold scheduleTodayAndRescheduler
    dsimp only
    have hno := sched_no_resched_id cfg tol hist jobs hnotin
    rw [if_neg (fun hcc => hno (List.elem_iff.mp hcc))]
    have hm : (⟨"rescheduler-daily", Trig.once (tomorrow0005 cfg), JobFun.reschedDaily⟩ : Job) ∈
        (schedulePrayersForDate cfg tol hist jobs).1 ++
          ([⟨"rescheduler-daily", Trig.once (tomorrow0005 cfg), JobFun.reschedDaily⟩] :
            List Job) :=
      List.mem_append_right _ (by simp)
    split_ifs <;> first | exact hm | exact List.mem_append_left _ hm
  · intro cfg tol hist jobs
    rfl
  · intro cfg tol hist jobs
    apply sched_no_resched_id
    intro hmem
    obtain ⟨j, hj, hid⟩ := List.mem_map.1 hmem
    have := (List.mem_filter.1 hj).2
    rw [hid] at this
    simp at this


/-- Witness for C6 (amended) at concrete dates. -/
theorem daily_rescheduler_amended_witness :
    "rescheduler-daily" ∈ (scheduleTodayAndRescheduler cfgD 5 [] []).map Job.id ∧
    (⟨"rescheduler-daily", Trig.once (tomorrow0005 cfgD), JobFun.reschedDaily⟩ : Job) ∈
      scheduleTodayAndRescheduler cfgD 5 [] [] ∧
    (fireReschedDaily cfgD2 5 [] []).2 = [cfgD2.dateStr] :=
  ⟨daily_rescheduler_amended.1 cfgD 5 [] [],
   daily_rescheduler_amended.2.1 cfgD 5 [] [] (by decide),
   daily_rescheduler_amended.2.2.1 cfgD2 5 [] []⟩

/-- C7: when startup scheduling installs zero play jobs, a
`missed-scheduler` job on a 5-minute interval is installed; after 6
unsuccessful attempts for the same date the recovery job is replaced by an
hourly interval job, so the next attempt occurs no sooner than 3600
seconds later; and the first firing that installs at least one job removes
the recovery job and reconfirms the daily rescheduler. -/
theorem missed_recovery_escalation :
    (∀ cfg tol hist jobs, "missed-scheduler" ∉ jobs.map Job.id →
      (schedulePrayersForDate cfg tol hist jobs).2 = 0 →
      (⟨"missed-scheduler", Trig.every 5, JobFun.missedSched⟩ : Job) ∈
        scheduleTodayAndRescheduler cfg tol hist jobs) ∧
    (∀ cfg tol hist ms, (schedulePrayersForDate cfg tol hist ms.jobs).2 = 0 →
      5 ≤ ms.attempts →
      (fireMissedScheduler cfg tol hist ms).jobs.filter
          (fun j => j.id == "missed-scheduler") =
        [⟨"missed-scheduler", Trig.every 60, JobFun.missedSched⟩] ∧
      (∀ t : Int, t + 3600 ≤ trigNextRun (Trig.every 60) t)) ∧
    (∀ cfg tol hist ms, 0 < (schedulePrayersForDate cfg tol hist ms.jobs).2 →
      "missed-scheduler" ∉ (fireMissedScheduler cfg tol hist ms).jobs.map Job.id ∧
      "rescheduler-daily" ∈ (fireMissedScheduler cfg tol hist ms).jobs.map Job.id) := by
  refine ⟨?_, ?_, ?_⟩
  · intro cfg tol hist jobs hnotin hcnt
    unfold scheduleTodayAndRescheduler
    dsimp only
    rw [hcnt]
    have hno1 := sched_no_missed_id cfg tol hist jobs hnotin
    have hno2 : ∀ jb : Job, jb.id = "rescheduler-daily" →
        "missed-scheduler" ∉ ((schedulePrayersForDate cfg tol hist jobs).1 ++ [jb]).map Job.id := by
      intro jb hjb hmem
      rw [List.map_append] at hmem
      rcases List.mem_append.1 hmem with h | h
      · exact hno1 h
      · simp only [List.map_cons, List.map_nil, List.mem_singleton] at h
        rw [hjb] at h
        exact absurd h (by decide)
    rw [if_pos rfl]
    by_cases hR : (((schedulePrayersForDate cfg tol hist jobs).1.map Job.id).contains
        "rescheduler-daily") = true
    · rw [if_pos hR]
      rw [if_neg (fun hcc => hno1 (List.elem_iff.mp hcc))]
      exact List.mem_append_right _ (by simp)
    · rw [if_neg hR]
      rw [if_neg (fun hcc =>
        hno2 ⟨"rescheduler-daily", Trig.once (tomorrow0005 cfg), JobFun.reschedDaily⟩ rfl
          (List.elem_iff.mp hcc))]
      exact List.mem_append_right _ (by simp)
  · intro cfg tol hist ms hcnt hat
    constructor
    · unfold fireMissedScheduler
      dsimp only
      rw [hcnt]
      rw [if_neg (by omega), if_pos (by omega)]
      dsimp only
      rw [List.filter_append]
      have h1 : ((schedulePrayersForDate cfg tol hist ms.jobs).1.filter
          (fun j => j.id ≠ "missed-scheduler")).filter (fun j => j.id == "missed-scheduler") =
          [] := by
        apply List.filter_eq_nil_iff.mpr
        intro j hj
        have := (List.mem_filter.1 hj).2
        simp only [ne_eq, decide_not, Bool.not_eq_true', decide_eq_false_iff_not] at this
        simp [this]
      rw [h1, List.nil_append]
      rfl
    · intro t
      simp only [trigNextRun]
      omega
  · intro cfg tol hist ms hcnt
    unfold fireMissedScheduler
    dsimp only
    rw [if_pos hcnt]
    constructor
    · intro hmem
      obtain ⟨j, hj, hid⟩ := List.mem_map.1 hmem
      have hj2 : j ∈ (schedulePrayersForDate cfg tol hist ms.jobs).1.filter
          (fun j => j.id ≠ "missed-scheduler") ∨ j.id = "rescheduler-daily" := by
        split_ifs at hj with hA
        · exact Or.inl hj
        · rcases List.mem_append.1 hj with h | h
          · exact Or.inl h
          · simp only [List.mem_singleton] at h
            exact Or.inr (by rw [h])
      rcases hj2 with h | h
      · have := (List.mem_filter.1 h).2
        simp only [ne_eq, decide_not, Bool.not_eq_true', decide_eq_false_iff_not] at this
        exact this hid
      · rw [hid] at h
        exact absurd h (by decide)
    · split_ifs with hA
      · exact List.elem_iff.mp hA
      · rw [List.map_append]
        exact List.mem_append_right _ (by simp)

/-- Witness for C7 at concrete recovery states. -/
theorem missed_recovery_escalation_witness :
    (⟨"missed-scheduler", Trig.every 5, JobFun.missedSched⟩ : Job) ∈
      scheduleTodayAndRescheduler cfgNone 5 [] [] ∧
    (fireMissedScheduler cfgNone 5 [] msFive).jobs.filter
        (fun j => j.id == "missed-scheduler") =
      [⟨"missed-scheduler", Trig.every 60, JobFun.missedSched⟩] ∧
    "missed-scheduler" ∉ (fireMissedScheduler cfgD 5 [] ⟨0, []⟩).jobs.map Job.id :=
  ⟨missed_recovery_escalation.1 cfgNone 5 [] [] (by decide) (by decide),
   (missed_recovery_escalation.2.1 cfgNone 5 [] msFive (by decide) (by decide)).1,
   (missed_recovery_escalation.2.2 cfgD 5 [] ⟨0, []⟩ (by decide)).1⟩



/-- C8 counterexample: in a session with one snapshotted playing device,
the monitor's event trace begins with the lock-clear event and the
restoration calls follow it — the lock is NOT cleared only after
restoration completes. -/
theorem lock_cleared_before_restore_cex :
    (monitorRun stMon mEnvOff "c" [spkC] urlA []).events =
      [MonEvent.lockCleared, MonEvent.call (DevCall.setVolume "c" 20),
       MonEvent.call (DevCall.playUri "c" "http://192.0.2.1:5000/audio/prior.mp3"),
       MonEvent.call (DevCall.seek "c" "0:01:00")] ∧
    (monitorRun stMon mEnvOff "c" [spkC] urlA []).restoreCalls ≠ [] := by
  decide

/-- C8 (amended): the monitor always ends with the lock and the
playback-active flag cleared, and every restoration call occurs strictly
after the lock-clear event in the execution trace — restoration runs with
the lock already released, so a new session may begin mid-restore. -/
theorem lock_cleared_precedes_restore (st : ServerState) (env : MonEnv) (cu : String)
    (speakers : List Speaker) (url : String) (obs : List Obs) :
    (monitorRun st env cu speakers url obs).finalState.azanLock = false ∧
    (monitorRun st env cu speakers url obs).finalState.playbackActive = false ∧
    ∀ c ∈ (monitorRun st env cu speakers url obs).restoreCalls,
      ∃ i j : Nat, i < j ∧
        (monitorRun st env cu speakers url obs).events[i]? = some MonEvent.lockCleared ∧
        (monitorRun st env cu speakers url obs).events[j]? = some (MonEvent.call c) := by
  refine ⟨rfl, rfl, ?_⟩
  intro c hc
  set lc := monLoop env cu speakers url obs none false with hlc
  set rc := restoreAll env cu st.snapshot speakers with hrc
  have hev : (monitorRun st env cu speakers url obs).events =
      lc.map MonEvent.call ++ MonEvent.lockCleared :: rc.map MonEvent.call := rfl
  have hcrc : c ∈ rc := hc
  obtain ⟨k, hk, he⟩ := List.mem_iff_getElem.mp (List.mem_map_of_mem MonEvent.call hcrc)
  refine ⟨(lc.map MonEvent.call).length, (lc.map MonEvent.call).length + 1 + k,
    by omega, ?_, ?_⟩
  · rw [hev, List.getElem?_append_right (le_refl _)]
    simp
  · rw [hev, List.getElem?_append_right (by omega)]
    have hsub : (lc.map MonEvent.call).length + 1 + k - (lc.map MonEvent.call).length
        = k + 1 := by omega
    rw [hsub]
    simp only [List.getElem?_cons_succ]
    rw [List.getElem?_eq_getElem hk, he]

/-- Witness for C8 (amended) at a concrete session. -/
theorem lock_cleared_precedes_restore_witness :
    ∃ i j : Nat, i < j ∧
      (monitorRun stMon mEnvOff "c" [spkC] urlA []).events[i]? = some MonEvent.lockCleared ∧
      (monitorRun stMon mEnvOff "c" [spkC] urlA []).events[j]? =
        some (MonEvent.call (DevCall.setVolume "c" 20)) :=
  (lock_cleared_precedes_restore stMon mEnvOff "c" [spkC] urlA []).2.2
    (DevCall.setVolume "c" 20) (by decide)

/-- C9: during restoration, a device whose snapshot shows PLAYING with a
non-stream (locally served) URI and a usable position gets exactly a
volume restore, an unjoin when it is not the coordinator, and a final play
of the snapshot URI followed by a seek to the snapshot position; a device
whose snapshot holds a streaming URI gets its URI restored with no seek
call issued. -/
theorem restore_seek_policy (env : MonEnv) (cu : String) (snapshot : List (String × Snap))
    (speakers : List Speaker) (s : Speaker) (snap : Snap)
    (hnd : (speakers.map Speaker.uid).Nodup) (hs : s ∈ speakers)
    (hl : snapshot.lookup s.uid = some snap)
    (hplay : snap.state = "PLAYING") (huri : snap.uri ≠ "") :
    (isStreamUri snap.uri = false → env.restorePlayFails s.uid = false →
      snap.position ≠ "" → snap.position ≠ "NOT_IMPLEMENTED" →
      callsFor s.uid (restoreAll env cu snapshot speakers) =
        [DevCall.setVolume s.uid snap.volume] ++
          (if s.uid = cu then [] else [DevCall.unjoin s.uid]) ++
          [DevCall.playUri s.uid snap.uri, DevCall.seek s.uid snap.position]) ∧
    (isStreamUri snap.uri = true →
      DevCall.playUri s.uid snap.uri ∈ callsFor s.uid (restoreAll env cu snapshot speakers) ∧
      ∀ p, DevCall.seek s.uid p ∉ callsFor s.uid (restoreAll env cu snapshot speakers)) := by
  rw [callsFor_restoreAll env cu snapshot speakers s hnd hs]
  have hc1 : (decide (snap.state = "PLAYING") && !decide (snap.uri = "")) = true := by
    simp [hplay, huri]
  constructor
  · intro hns hpf hpos1 hpos2
    have hc2 : ¬ (isStreamUri snap.uri = true) := by simp [hns]
    have hc3 : ¬ (env.restorePlayFails s.uid = true) := by simp [hpf]
    have hc4 : (!decide (snap.position = "") && !decide (snap.position = "NOT_IMPLEMENTED"))
        = true := by simp [hpos1, hpos2]
    unfold restoreDevice
    rw [hl]
    dsimp only
    rw [if_pos hc1, if_neg hc2, if_neg hc3, if_pos hc4]
    simp
  · intro hstream
    unfold restoreDevice
    rw [hl]
    dsimp only
    rw [if_pos hc1, if_pos hstream]
    constructor
    · exact List.mem_append_right _ (by simp)
    · intro p hp
      rcases List.mem_append.1 hp with h12 | h3
      · rcases List.mem_append.1 h12 with h1 | h2
        · simp at h1
        · split_ifs at h2 <;> simp at h2
      · simp at h3

/-- Witness for C9 at a concrete snapshotted device. -/
theorem restore_seek_policy_witness :
    callsFor "c" (restoreAll mEnvOff "c" stMon.snapshot [spkC]) =
      [DevCall.setVolume "c" 20] ++
        (if "c" = "c" then [] else [DevCall.unjoin "c"]) ++
        [DevCall.playUri "c" "http://192.0.2.1:5000/audio/prior.mp3",
         DevCall.seek "c" "0:01:00"] :=
  (restore_seek_policy mEnvOff "c" stMon.snapshot [spkC] spkC
      ⟨20, "http://192.0.2.1:5000/audio/prior.mp3", "0:01:00", "PLAYING"⟩
      (by decide) (by decide) (by decide) rfl (by decide)).1
    (by decide) rfl (by decide) (by decide)

theorem playedFileOf_two (req : Option String) :
    playedFileOf req = "fajr.mp3" ∨ playedFileOf req = "azan.mp3" := by
  unfold playedFileOf
  dsimp only
  split_ifs <;> first | exact Or.inl rfl | exact Or.inr rfl

theorem playedFileOf_idem (req : Option String) :
    playedFileOf (some (playedFileOf req)) = playedFileOf req := by
  rcases playedFileOf_two req with h | h <;> rw [h] <;> decide

/-- C10: every play request is normalised to one of exactly two files —
`fajr.mp3` when the requested name contains `fajr` case-insensitively and
`azan.mp3` otherwise — and playing the normalised name is
indistinguishable from the original request; consequently the on-time
dedup check of any non-fajr event is identical for all non-fajr events and
holds exactly when some ledger entry within the window has a file name
containing `azan.mp3`, regardless of which event produced it. -/
theorem filename_mapping_dedup :
    (∀ req, playedFileOf req = "fajr.mp3" ∨ playedFileOf req = "azan.mp3") ∧
    (∀ f : String, f ≠ "" →
      (playedFileOf (some f) = "fajr.mp3" ↔ containsSub (pyLower f) "fajr" = true)) ∧
    (∀ st env req, playAudio st env req = playAudio st env (some (playedFileOf req))) ∧
    (∀ hist k1 k2 sched tol, k1 ≠ "fajr" → k2 ≠ "fajr" →
      playedOnTime hist k1 sched tol = playedOnTime hist k2 sched tol) ∧
    (∀ hist k sched tol, k ≠ "fajr" →
      (playedOnTime hist k sched tol = true ↔
        ∃ e ∈ hist, (e.ts - sched).natAbs ≤ (tol * 60).toNat ∧ e.file ≠ "" ∧
          containsSub e.file "azan.mp3" = true)) := by
  refine ⟨playedFileOf_two, ?_, ?_, ?_, ?_⟩
  · intro f hf
    unfold playedFileOf
    dsimp only
    rw [if_neg hf, containsSub_strip_lower f]
    split_ifs with h
    · simp [h]
    · constructor
      · intro h'; exact absurd h' (by decide)
      · intro h'; exact absurd h' h
  · intro st env req
    unfold playAudio
    rw [playedFileOf_idem]
  · intro hist k1 k2 sched tol h1 h2
    have hpf : prayerFile k1 = prayerFile k2 := by
      unfold prayerFile
      rw [if_neg h1, if_neg h2]
    unfold playedOnTime
    simp only [hpf]
  · intro hist k sched tol hk
    have hpf : prayerFile k = "azan.mp3" := by
      unfold prayerFile
      rw [if_neg hk]
    unfold playedOnTime
    simp only [hpf, List.any_eq_true, Bool.and_eq_true, decide_eq_true_eq,
      Bool.not_eq_true', decide_eq_false_iff_not]
    constructor
    · rintro ⟨e, he, ⟨⟨hd, hf⟩, hc⟩⟩
      exact ⟨e, he, hd, hf, hc⟩
    · rintro ⟨e, he, hd, hf, hc⟩
      exact ⟨e, he, ⟨⟨hd, hf⟩, hc⟩⟩

/-- Witness for C10 at concrete requests and ledger entries. -/
theorem filename_mapping_dedup_witness :
    (playedFileOf (some "Dhuhr.mp3") = "fajr.mp3" ∨ playedFileOf (some "Dhuhr.mp3") = "azan.mp3") ∧
    (playedFileOf (some " FAJR-extra.mp3") = "fajr.mp3" ↔
      containsSub (pyLower " FAJR-extra.mp3") "fajr" = true) ∧
    playedOnTime histDhuhr "dhuhr" 45000 5 = playedOnTime histDhuhr "asr" 45000 5 :=
  ⟨filename_mapping_dedup.1 (some "Dhuhr.mp3"),
   filename_mapping_dedup.2.1 " FAJR-extra.mp3" (by decide),
   filename_mapping_dedup.2.2.2.1 histDhuhr "dhuhr" "asr" 45000 5 (by decide) (by decide)⟩

end Bilal
